import Mathlib

/-!
Verification development for the pass-based compilation scheduler
(`qiskit.transpiler`: `PassManager`, flow-control plugins, fencing).
The scheduler implementation itself is not present in the source tree
(only its test suite, `test/python/transpiler/test_pass_scheduler.py`, is),
so the execution engine below is modelled from the specification and
calibrated against the observable behaviour pinned by that test suite.
-/

namespace Transpiler

/-- The two kinds of passes: Analysis and Transformation. -/
inductive PassKind where
  | analysis
  | transformation
deriving DecidableEq, Repr

/-- Values stored in the Property Set and used as pass constructor arguments. -/
inductive PropValue where
  | b (x : Bool)
  | n (x : Nat)
deriving DecidableEq, Repr

/-- Modelled from the spec: a pass identity comprises its class and its
constructor arguments ("two passes are the same identity iff kind, class,
and constructor arguments match"; the kind is determined by the class). -/
structure PassId where
  cls : String
  args : List PropValue
deriving DecidableEq, Repr

/-- The mutable artifact (the DAG circuit); the scheduler treats it as an
opaque handle, so a single numeric payload suffices. -/
structure Dag where
  property : Nat
deriving DecidableEq, Repr

/-- The Property Set: a mutable string-keyed metadata store for one run. -/
abbrev PropertySet := List (String × PropValue)

/-- Write a key into the Property Set, overwriting any previous binding. -/
def setProp (ps : PropertySet) (k : String) (v : PropValue) : PropertySet :=
  (k, v) :: ps.filter (fun kv => kv.1 != k)

/-- Read a key from the Property Set. -/
def getProp (ps : PropertySet) (k : String) : Option PropValue :=
  (ps.find? (fun kv => kv.1 == k)).map Prod.snd

/-- Primitive side effects a pass body may attempt; the fencing discipline
decides which of them are legal for which pass kind. -/
inductive PassOp where
  | writeDag (f : Dag → Dag)
  | writeProp (k : String) (v : PropValue)

/-- Per-pass option settings; `none` means "not set at this level". -/
structure PassOptions where
  idempotence : Option Bool
  ignoreRequires : Option Bool
  ignorePreserves : Option Bool
deriving DecidableEq, Repr

/-- Options with nothing set. -/
def noOptions : PassOptions := ⟨none, none, none⟩

/-- The options of a pass after resolution (add time): concrete booleans. -/
structure ResolvedOpts where
  idempotence : Bool
  ignoreRequires : Bool
  ignorePreserves : Bool
deriving DecidableEq, Repr

/-- A scheduled pass: an identity together with its resolved options. -/
structure RPass where
  pid : PassId
  opts : ResolvedOpts
deriving DecidableEq, Repr

/-- Modelled from the spec: the declaration attached to a pass identity
(`kind`, `requires`, `preserves`, instance-level option settings, the body
as a list of primitive operations, and whether a Transformation pass
returns the artifact). The concrete pass classes live outside the
scheduler; `_dummy_passes.py` is also absent from the source tree. -/
structure PassDecl where
  kind : PassKind
  requires : List PassId
  preserves : List PassId
  setOpts : PassOptions
  ops : List PassOp
  returnsDag : Bool

/-- The environment assigning to every pass identity its declaration. -/
abbrev Env := PassId → PassDecl

/-- Resolve one option: pass-level setting, else group-level (`add_pass`),
else manager-level, else the stated default. -/
def resolveOpt (p g m : Option Bool) (d : Bool) : Bool :=
  (((p.orElse fun _ => g).orElse fun _ => m).getD d)

/-- Modelled from the spec: option precedence (highest to lowest) is the
option set directly on a Pass instance, then the option passed to the
`add_pass` call for that group, then the Scheduler-level default; the
built-in defaults are `idempotence = true`, `ignore_requires = false`,
`ignore_preserves = false`. -/
def resolveOpts (p g m : PassOptions) : ResolvedOpts :=
  { idempotence := resolveOpt p.idempotence g.idempotence m.idempotence true
    ignoreRequires := resolveOpt p.ignoreRequires g.ignoreRequires m.ignoreRequires false
    ignorePreserves := resolveOpt p.ignorePreserves g.ignorePreserves m.ignorePreserves false }

/-- Build the scheduled pass stored in the working list by an `add_pass`
call: options are resolved with pass > group > manager precedence. -/
def mkScheduled (pid : PassId) (passOpts groupOpts pmOpts : PassOptions) : RPass :=
  ⟨pid, resolveOpts passOpts groupOpts pmOpts⟩

/-- A pass executed because it appears in another pass's `requires` list:
it carries its declaration-level settings and the manager defaults (no
group options apply to it). -/
def requiredRPass (env : Env) (pm : PassOptions) (r : PassId) : RPass :=
  ⟨r, resolveOpts (env r).setOpts noOptions pm⟩

/-- The fenced resources. -/
inductive Resource where
  | artifact
  | propertySet
deriving DecidableEq, Repr

/-- Error kinds of the scheduler (all fatal, none retried). -/
inductive SchedErr where
  | accessViolation (res : Resource) (p : PassId)
  | missingResult (p : PassId)
  | iterationLimit
  | unknownPlugin
  | fuelExhausted
deriving DecidableEq, Repr

/-- The state threaded through one `run` invocation: the artifact, the
property set, the valid-pass cache and the execution trace (one entry per
pass actually executed, in execution order). -/
structure SchedState where
  dag : Dag
  property_set : PropertySet
  valid_passes : List PassId
  trace : List PassId
deriving DecidableEq, Repr

/-- Outcome of a scheduling step: the new state, or a fatal error together
with the trace at the moment of the failure. -/
inductive Result where
  | ok (st : SchedState)
  | err (e : SchedErr) (trace : List PassId)
deriving DecidableEq, Repr

/-- Sequencing of scheduling steps; an error aborts everything after it. -/
def bindResult (x : Result) (f : SchedState → Result) : Result :=
  match x with
  | .ok st => f st
  | .err e tr => .err e tr

/-- Insert a pass identity into the valid-pass cache. -/
def insertPid (p : PassId) (V : List PassId) : List PassId :=
  if p ∈ V then V else p :: V

/-- Modelled from the spec (calibrated against `test_ignore_preserves_pm`
and `test_pass_idempotence_pm`): after a pass executes, a Transformation
pass with `ignore_preserves` not in effect removes from the valid-pass
cache every entry not in its `preserves`; with `ignore_preserves` in
effect the cache is left untouched (invalidation is skipped and the pass
is not recorded as valid). An Analysis pass invalidates nothing. A pass
is added to the cache only when its effective `idempotence` is true. -/
def update_valid_passes (env : Env) (sp : RPass) (V : List PassId) : List PassId :=
  if (env sp.pid).kind = .analysis then
    (if sp.opts.idempotence = true then insertPid sp.pid V else V)
  else if sp.opts.ignorePreserves = true then V
  else if sp.opts.idempotence = true then
    insertPid sp.pid (V.filter (fun x => decide (x ∈ (env sp.pid).preserves)))
  else V.filter (fun x => decide (x ∈ (env sp.pid).preserves))

/-- Run an Analysis pass body against the Property Set under fencing:
a `writeDag` operation is a write through the fenced artifact view. -/
def applyAnalysisOps : List PassOp → PropertySet → Option PropertySet
  | [], ps => some ps
  | .writeProp k v :: rest, ps => applyAnalysisOps rest (setProp ps k v)
  | .writeDag _ :: _, _ => none

/-- Run a Transformation pass body against the artifact under fencing:
a `writeProp` operation is a write through the fenced property-set view. -/
def applyTransOps : List PassOp → Dag → Option Dag
  | [], d => some d
  | .writeDag f :: rest, d => applyTransOps rest (f d)
  | .writeProp _ _ :: _, _ => none

/-- Execute one pass unconditionally: log its trace entry, run its body
under the fencing discipline of its kind, signal `accessViolation` on a
fenced write and `missingResult` when a Transformation pass returns no
artifact, and update the valid-pass cache on success. -/
def execRun (env : Env) (st : SchedState) (sp : RPass) : Result :=
  let d := env sp.pid
  let tr := st.trace ++ [sp.pid]
  match d.kind with
  | .analysis =>
      match applyAnalysisOps d.ops st.property_set with
      | none => .err (.accessViolation .artifact sp.pid) tr
      | some ps =>
          .ok { st with trace := tr, property_set := ps,
                        valid_passes := update_valid_passes env sp st.valid_passes }
  | .transformation =>
      match applyTransOps d.ops st.dag with
      | none => .err (.accessViolation .propertySet sp.pid) tr
      | some dg =>
          if d.returnsDag = true then
            .ok { st with trace := tr, dag := dg,
                          valid_passes := update_valid_passes env sp st.valid_passes }
          else .err (.missingResult sp.pid) tr

/-- Modelled from the spec: the de-duplication step. A pass is skipped
(considered already satisfied) exactly when its effective `idempotence`
is true, its identity is in the valid-pass cache, and its effective
`ignore_preserves` is false; otherwise it executes. -/
def passBody (env : Env) (sp : RPass) (st : SchedState) : Result :=
  if sp.opts.idempotence = true ∧ sp.pid ∈ st.valid_passes ∧ sp.opts.ignorePreserves = false
  then .ok st
  else execRun env st sp

/-- A unit of work for the fuelled interpreter: process one scheduled pass,
or resolve a list of required pass identities left to right. -/
inductive SchedTask where
  | pass (sp : RPass)
  | reqs (rs : List PassId)

/-- Modelled from the spec: the execution algorithm for one scheduled pass.
Unless its effective `ignore_requires` is true, the pass's `requires` are
first resolved recursively, depth-first and left to right (each required
identity runs through the same algorithm); then the de-duplication check
runs and, when it does not apply, the pass executes. The `fuel` argument
makes the recursion total (the source behaviour on cyclic `requires` is
unspecified). -/
def sched (env : Env) (pm : PassOptions) : Nat → SchedTask → SchedState → Result
  | 0, _, st => .err .fuelExhausted st.trace
  | fuel + 1, .pass sp, st =>
      bindResult
        (if sp.opts.ignoreRequires = true then .ok st
         else sched env pm fuel (.reqs (env sp.pid).requires) st)
        (passBody env sp)
  | _ + 1, .reqs [], st => .ok st
  | fuel + 1, .reqs (r :: rs), st =>
      bindResult (sched env pm fuel (.pass (requiredRPass env pm r)) st)
        (fun st1 => sched env pm fuel (.reqs rs) st1)

/-- Process one scheduled pass (requires resolution, de-duplication,
execution). -/
def do_pass (env : Env) (pm : PassOptions) (fuel : Nat) (st : SchedState) (sp : RPass) : Result :=
  sched env pm fuel (.pass sp) st

/-- Resolve a list of required pass identities, left to right. -/
def run_requires (env : Env) (pm : PassOptions) (fuel : Nat) (rs : List PassId) (st : SchedState) : Result :=
  sched env pm fuel (.reqs rs) st

/-- A flow-controller item of the working list: a single pass, the empty
sequence, sequencing, a conditional controller, or a repeat-until
(do-while) controller with an iteration bound. Controllers nest. -/
inductive Item where
  | single (sp : RPass)
  | skip
  | andThen (i j : Item)
  | conditional (pred : PropertySet → Bool) (body : Item)
  | doWhile (pred : PropertySet → Bool) (maxIteration : Nat) (body : Item)

/-- Build the linear (run once, in order) controller over a list of items. -/
def seqOf : List Item → Item
  | [] => .skip
  | i :: rest => .andThen i (seqOf rest)

/-- Modelled from the spec: the repeat-until-fixed-point loop. The body
runs, then the predicate is evaluated over the current Property Set; the
loop repeats while the predicate is true, and raising `iterationLimit`
replaces the iteration that would exceed the bound. -/
def loopWhile (runBody : SchedState → Result) (pred : PropertySet → Bool) :
    Nat → SchedState → Result
  | 0, st => .err .iterationLimit st.trace
  | n + 1, st =>
      bindResult (runBody st)
        (fun st1 => if pred st1.property_set = true then loopWhile runBody pred n st1 else .ok st1)

/-- Pure `n`-fold sequential composition of a scheduling step. -/
def iterBody (f : SchedState → Result) : Nat → SchedState → Result
  | 0, st => .ok st
  | n + 1, st => bindResult (f st) (fun st1 => iterBody f n st1)

/-- Modelled from the spec: walking one flow-controller item. A single
pass goes through `do_pass`; sequencing is left to right; a conditional
controller evaluates its predicate over the Property Set as of the moment
the controller is reached, producing its body once if true and nothing if
false; a do-while controller loops its body under its iteration bound. -/
def runItemF (env : Env) (pm : PassOptions) (fuel : Nat) : Item → SchedState → Result
  | .single sp, st => do_pass env pm fuel st sp
  | .skip, st => .ok st
  | .andThen i j, st =>
      bindResult (runItemF env pm fuel i st) (fun st1 => runItemF env pm fuel j st1)
  | .conditional pred body, st =>
      if pred st.property_set = true then runItemF env pm fuel body st else .ok st
  | .doWhile pred maxIteration body, st =>
      loopWhile (fun s => runItemF env pm fuel body s) pred maxIteration st

/-- Walk the working list (the flattened schedule), aborting on error. -/
def runItemsF (env : Env) (pm : PassOptions) (fuel : Nat) : List Item → SchedState → Result
  | [], st => .ok st
  | i :: rest, st =>
      bindResult (runItemF env pm fuel i st) (fun st1 => runItemsF env pm fuel rest st1)

/-- A control-flow plugin constructor: given the controller keyword's
predicate argument, its numeric argument (for example the iteration
bound), and the pass group, build the controller item. -/
abbrev PluginCtor := (PropertySet → Bool) → Nat → Item → Item

/-- The pass manager: scheduler-level default options, the working list,
and the registry of control-flow plugins. -/
structure PassManager where
  pmOpts : PassOptions
  working_list : List Item
  plugins : List (String × PluginCtor)

/-- The registry is initialized with the conditional and do-while
controllers under their fixed names. -/
def defaultPlugins : List (String × PluginCtor) :=
  [("condition", fun pred _ body => .conditional pred body),
   ("do_while", fun pred m body => .doWhile pred m body)]

/-- Construct a pass manager with the given scheduler-level defaults. -/
def newPassManager (opts : PassOptions) : PassManager :=
  ⟨opts, [], defaultPlugins⟩

/-- Register (or overwrite) a control-flow plugin under a name. -/
def add_control_flow_plugin (pm : PassManager) (name : String) (ctor : PluginCtor) : PassManager :=
  { pm with plugins := (name, ctor) :: pm.plugins.filter (fun kv => kv.1 != name) }

/-- Remove a control-flow plugin; removing an unregistered name fails with
the lookup error `unknownPlugin`. -/
def remove_control_flow_plugin (pm : PassManager) (name : String) :
    Except SchedErr PassManager :=
  if name ∈ pm.plugins.map Prod.fst then
    .ok { pm with plugins := pm.plugins.filter (fun kv => kv.1 != name) }
  else .error .unknownPlugin

/-- Append one group of passes (with per-call group options) to the
working list as a linear controller. -/
def add_pass (pm : PassManager) (group : List (PassId × PassOptions)) (groupOpts : PassOptions) :
    PassManager :=
  { pm with working_list :=
      pm.working_list ++ [seqOf (group.map fun x => .single (mkScheduled x.1 x.2 groupOpts pm.pmOpts))] }

/-- The initial state of one `run` invocation: empty property set, empty
valid-pass cache, empty trace. -/
def initState (dag : Dag) : SchedState := ⟨dag, [], [], []⟩

/-- Run the full schedule of a pass manager against an artifact. -/
def run_passes (env : Env) (pm : PassManager) (fuel : Nat) (dag : Dag) : Result :=
  runItemsF env pm.pmOpts fuel pm.working_list (initState dag)

/-! ### The dummy passes of the test suite, as a concrete environment -/

/-- Identity of `PassA_TP_NR_NP` (Transformation, no requires/preserves). -/
def pidA : PassId := ⟨"PassA_TP_NR_NP", []⟩

/-- Identity of `PassB_TP_RA_PA` (Transformation, requires A, preserves A). -/
def pidB : PassId := ⟨"PassB_TP_RA_PA", []⟩

/-- Identity of `PassC_TP_RA_PA` (Transformation, requires A, preserves A). -/
def pidC : PassId := ⟨"PassC_TP_RA_PA", []⟩

/-- Identity of `PassD_TP_NR_NP(argument1=[1, 2])`. -/
def pidD : PassId := ⟨"PassD_TP_NR_NP", [.n 1, .n 2]⟩

/-- Identity of `PassE_AP_NR_NP(argument1)` (Analysis, sets a property). -/
def pidE (x : Bool) : PassId := ⟨"PassE_AP_NR_NP", [.b x]⟩

/-- Identity of `PassH_Bad_TP` (Transformation that writes the property set). -/
def pidH : PassId := ⟨"PassH_Bad_TP", []⟩

/-- Identity of `PassI_Bad_AP` (Analysis that writes the artifact). -/
def pidI : PassId := ⟨"PassI_Bad_AP", []⟩

/-- Identity of `PassJ_Bad_NoReturn` (Transformation returning no artifact). -/
def pidJ : PassId := ⟨"PassJ_Bad_NoReturn", []⟩

/-- The dummy-pass environment of the test suite. -/
def testEnv : Env := fun pid =>
  if pid.cls = "PassB_TP_RA_PA" then ⟨.transformation, [pidA], [pidA], noOptions, [], true⟩
  else if pid.cls = "PassC_TP_RA_PA" then ⟨.transformation, [pidA], [pidA], noOptions, [], true⟩
  else if pid.cls = "PassE_AP_NR_NP" then
    ⟨.analysis, [], [], noOptions,
      [.writeProp "property" (match pid.args with | [.b x] => .b x | _ => .b false)], false⟩
  else if pid.cls = "PassH_Bad_TP" then
    ⟨.transformation, [], [], noOptions, [.writeProp "property" (.b true)], true⟩
  else if pid.cls = "PassI_Bad_AP" then
    ⟨.analysis, [], [], noOptions, [.writeDag (fun d => ⟨d.property + 1⟩)], false⟩
  else if pid.cls = "PassJ_Bad_NoReturn" then ⟨.transformation, [], [], noOptions, [], false⟩
  else ⟨.transformation, [], [], noOptions, [], true⟩

/-- A scheduled pass with fully default options. -/
def dflt (pid : PassId) : RPass := mkScheduled pid noOptions noOptions noOptions

/-! ### Helper lemmas -/

theorem bindResult_ok {x : Result} {f : SchedState → Result} {st' : SchedState}
    (h : bindResult x f = .ok st') : ∃ stm, x = .ok stm ∧ f stm = .ok st' := by
  cases x with
  | ok stm => exact ⟨stm, rfl, h⟩
  | err e tr => simp [bindResult] at h

theorem bindResult_err {x : Result} {f : SchedState → Result} {e : SchedErr}
    {tr : List PassId} (h : x = .err e tr) : bindResult x f = .err e tr := by
  rw [h]; rfl

theorem mem_insertPid {p q : PassId} {V : List PassId} :
    q ∈ insertPid p V ↔ q = p ∨ q ∈ V := by
  unfold insertPid
  split
  · next hin => constructor
                · exact fun h => Or.inr h
                · rintro (rfl | h) <;> [exact hin; exact h]
  · exact List.mem_cons

theorem update_valid_sub (env : Env) (sp : RPass) (V : List PassId) :
    ∀ x ∈ update_valid_passes env sp V, x ∈ V ∨ x = sp.pid := by
  intro x hx
  unfold update_valid_passes at hx
  split at hx
  · split at hx
    · rcases mem_insertPid.mp hx with h | h
      · exact Or.inr h
      · exact Or.inl h
    · exact Or.inl hx
  · split at hx
    · exact Or.inl hx
    · split at hx
      · rcases mem_insertPid.mp hx with h | h
        · exact Or.inr h
        · exact Or.inl (List.mem_of_mem_filter h)
      · exact Or.inl (List.mem_of_mem_filter hx)

theorem update_valid_self (env : Env) (sp : RPass) (V : List PassId)
    (hi : sp.opts.idempotence = true) (hp : sp.opts.ignorePreserves = false) :
    sp.pid ∈ update_valid_passes env sp V := by
  unfold update_valid_passes
  simp only [hi, hp, if_true, if_false, Bool.false_eq_true, ite_false]
  split
  · exact mem_insertPid.mpr (Or.inl rfl)
  · exact mem_insertPid.mpr (Or.inl rfl)

theorem update_valid_keep (env : Env) (sp : RPass) (V : List PassId) (B : PassId)
    (hB : B ∈ V) (hpres : B ∈ (env sp.pid).preserves) :
    B ∈ update_valid_passes env sp V := by
  unfold update_valid_passes
  split
  · split
    · exact mem_insertPid.mpr (Or.inr hB)
    · exact hB
  · split
    · exact hB
    · have hf : B ∈ V.filter (fun x => decide (x ∈ (env sp.pid).preserves)) :=
        List.mem_filter.mpr ⟨hB, by simpa using hpres⟩
      split
      · exact mem_insertPid.mpr (Or.inr hf)
      · exact hf

theorem update_valid_drop (env : Env) (sp : RPass) (V : List PassId) (B : PassId)
    (hk : (env sp.pid).kind = .transformation) (hip : sp.opts.ignorePreserves = false)
    (hpres : B ∉ (env sp.pid).preserves) (hne : B ≠ sp.pid) :
    B ∉ update_valid_passes env sp V := by
  intro hmem
  have hfil : B ∉ V.filter (fun x => decide (x ∈ (env sp.pid).preserves)) := by
    intro hc
    exact hpres (by simpa using (List.mem_filter.mp hc).2)
  unfold update_valid_passes at hmem
  rw [if_neg (by simp [hk]), if_neg (by simp [hip])] at hmem
  split at hmem
  · rcases mem_insertPid.mp hmem with h | h
    · exact hne h
    · exact hfil h
  · exact hfil hmem

theorem update_valid_ignorePres (env : Env) (sp : RPass) (V : List PassId)
    (hk : (env sp.pid).kind = .transformation) (hip : sp.opts.ignorePreserves = true) :
    update_valid_passes env sp V = V := by
  unfold update_valid_passes
  rw [if_neg (by simp [hk]), if_pos hip]

theorem update_valid_no_add (env : Env) (sp : RPass) (V : List PassId)
    (hi : sp.opts.idempotence = false) :
    ∀ x ∈ update_valid_passes env sp V, x ∈ V := by
  intro x hx
  unfold update_valid_passes at hx
  split at hx
  · rw [if_neg (by simp [hi])] at hx; exact hx
  · split at hx
    · exact hx
    · rw [if_neg (by simp [hi])] at hx
      exact List.mem_of_mem_filter hx

theorem execRun_ok_spec {env : Env} {st : SchedState} {sp : RPass} {st' : SchedState}
    (h : execRun env st sp = .ok st') :
    st'.trace = st.trace ++ [sp.pid] ∧
    st'.valid_passes = update_valid_passes env sp st.valid_passes ∧
    st'.dag = st.dag ∨
    st'.trace = st.trace ++ [sp.pid] ∧
    st'.valid_passes = update_valid_passes env sp st.valid_passes ∧
    st'.property_set = st.property_set := by
  simp only [execRun] at h
  split at h
  · split at h
    · exact absurd h (by simp)
    · cases h; exact Or.inl ⟨rfl, rfl, rfl⟩
  · split at h
    · exact absurd h (by simp)
    · split at h
      · cases h; exact Or.inr ⟨rfl, rfl, rfl⟩
      · exact absurd h (by simp)

theorem execRun_ok_trace {env : Env} {st : SchedState} {sp : RPass} {st' : SchedState}
    (h : execRun env st sp = .ok st') :
    st'.trace = st.trace ++ [sp.pid] ∧
    st'.valid_passes = update_valid_passes env sp st.valid_passes := by
  rcases execRun_ok_spec h with ⟨h1, h2, _⟩ | ⟨h1, h2, _⟩ <;> exact ⟨h1, h2⟩

/-- The main invariant of the fuelled execution engine, for successful
runs: the trace only grows by a suffix `Δ`; every identity newly in the
valid-pass cache was executed (its entry is in `Δ`); the identity of a
processed pass ends up either already valid at entry or executed; and
every required identity not valid at entry is executed. -/
theorem sched_ok_spec (env : Env) (pm : PassOptions) :
    ∀ (fuel : Nat) (task : SchedTask) (st st' : SchedState),
      sched env pm fuel task st = .ok st' →
      ∃ Δ, st'.trace = st.trace ++ Δ ∧
        (∀ x, x ∈ st'.valid_passes → x ∈ st.valid_passes ∨ x ∈ Δ) ∧
        (∀ sp, task = .pass sp → (sp.pid ∈ st.valid_passes ∨ sp.pid ∈ Δ)) ∧
        (∀ rs q, task = .reqs rs → q ∈ rs → (q ∈ st.valid_passes ∨ q ∈ Δ)) := by
  intro fuel
  induction fuel with
  | zero =>
    intro task st st' h
    exact absurd h (by cases task <;> simp [sched])
  | succ n ih =>
    intro task st st' h
    cases task with
    | pass sp =>
      rw [show sched env pm (n+1) (.pass sp) st =
            bindResult (if sp.opts.ignoreRequires = true then .ok st
                        else sched env pm n (.reqs (env sp.pid).requires) st)
              (passBody env sp) from rfl] at h
      obtain ⟨stm, hx, hb⟩ := bindResult_ok h
      have hstm : ∃ Δ₁, stm.trace = st.trace ++ Δ₁ ∧
          (∀ x, x ∈ stm.valid_passes → x ∈ st.valid_passes ∨ x ∈ Δ₁) := by
        by_cases hir : sp.opts.ignoreRequires = true
        · rw [if_pos hir] at hx
          cases hx
          exact ⟨[], by simp, fun x hx => Or.inl hx⟩
        · rw [if_neg hir] at hx
          obtain ⟨Δ₁, h1, h2, _, _⟩ := ih _ _ _ hx
          exact ⟨Δ₁, h1, h2⟩
      obtain ⟨Δ₁, ht1, hv1⟩ := hstm
      unfold passBody at hb
      split at hb
      · next hcond =>
        cases hb
        refine ⟨Δ₁, ht1, hv1, ?_, ?_⟩
        · intro sp' hsp
          cases hsp
          exact hv1 _ hcond.2.1
        · intro rs q hrs
          cases hrs
      · obtain ⟨htr, hval⟩ := execRun_ok_trace hb
        refine ⟨Δ₁ ++ [sp.pid], by rw [htr, ht1, List.append_assoc], ?_, ?_, ?_⟩
        · intro x hx'
          rw [hval] at hx'
          rcases update_valid_sub env sp _ x hx' with hmem | heq
          · rcases hv1 x hmem with hmm | hmm
            · exact Or.inl hmm
            · exact Or.inr (List.mem_append_left _ hmm)
          · exact Or.inr (List.mem_append_right _ (by simp [heq]))
        · intro sp' hsp
          cases hsp
          exact Or.inr (List.mem_append_right _ (by simp))
        · intro rs q hrs
          cases hrs
    | reqs rs =>
      cases rs with
      | nil =>
        rw [show sched env pm (n+1) (.reqs []) st = .ok st from rfl] at h
        cases h
        refine ⟨[], by simp, fun x hx => Or.inl hx, ?_, ?_⟩
        · intro sp hsp
          cases hsp
        · intro rs q hrs hq
          cases hrs
          cases hq
      | cons r rest =>
        rw [show sched env pm (n+1) (.reqs (r :: rest)) st =
              bindResult (sched env pm n (.pass (requiredRPass env pm r)) st)
                (fun st1 => sched env pm n (.reqs rest) st1) from rfl] at h
        obtain ⟨stm, hx, hrest⟩ := bindResult_ok h
        obtain ⟨Δ₁, h1t, h1v, h1p, _⟩ := ih _ _ _ hx
        obtain ⟨Δ₂, h2t, h2v, _, h2r⟩ := ih _ _ _ hrest
        refine ⟨Δ₁ ++ Δ₂, by rw [h2t, h1t, List.append_assoc], ?_, ?_, ?_⟩
        · intro x hx'
          rcases h2v x hx' with hm | hm
          · rcases h1v x hm with hmm | hmm
            · exact Or.inl hmm
            · exact Or.inr (List.mem_append_left _ hmm)
          · exact Or.inr (List.mem_append_right _ hm)
        · intro sp hsp
          cases hsp
        · intro rs' q hrs hq
          cases hrs
          rcases List.mem_cons.mp hq with rfl | hq'
          · rcases h1p _ rfl with hm | hm
            · exact Or.inl hm
            · exact Or.inr (List.mem_append_left _ hm)
          · rcases h2r _ q rfl hq' with hm | hm
            · rcases h1v q hm with hmm | hmm
              · exact Or.inl hmm
              · exact Or.inr (List.mem_append_left _ hmm)
            · exact Or.inr (List.mem_append_right _ hm)

theorem applyAnalysisOps_none {f : Dag → Dag} :
    ∀ (ops : List PassOp) (ps : PropertySet), PassOp.writeDag f ∈ ops →
      applyAnalysisOps ops ps = none := by
  intro ops
  induction ops with
  | nil => intro ps h; cases h
  | cons op rest ih =>
    intro ps h
    cases op with
    | writeDag g => rfl
    | writeProp k v =>
      rcases List.mem_cons.mp h with heq | hmem
      · cases heq
      · exact ih _ hmem

theorem applyTransOps_none {k : String} {v : PropValue} :
    ∀ (ops : List PassOp) (d : Dag), PassOp.writeProp k v ∈ ops →
      applyTransOps ops d = none := by
  intro ops
  induction ops with
  | nil => intro d h; cases h
  | cons op rest ih =>
    intro d h
    cases op with
    | writeProp k' v' => rfl
    | writeDag g =>
      rcases List.mem_cons.mp h with heq | hmem
      · cases heq
      · exact ih _ hmem

theorem execRun_analysis_violation (env : Env) (st : SchedState) (sp : RPass)
    (hk : (env sp.pid).kind = .analysis) (f : Dag → Dag)
    (hop : PassOp.writeDag f ∈ (env sp.pid).ops) :
    execRun env st sp = .err (.accessViolation .artifact sp.pid) (st.trace ++ [sp.pid]) := by
  simp only [execRun, hk, applyAnalysisOps_none _ _ hop]

theorem execRun_transformation_violation (env : Env) (st : SchedState) (sp : RPass)
    (hk : (env sp.pid).kind = .transformation) (k : String) (v : PropValue)
    (hop : PassOp.writeProp k v ∈ (env sp.pid).ops) :
    execRun env st sp = .err (.accessViolation .propertySet sp.pid) (st.trace ++ [sp.pid]) := by
  simp only [execRun, hk, applyTransOps_none _ _ hop]

theorem runItemsF_err_append (env : Env) (pm : PassOptions) (fuel : Nat)
    (items rest : List Item) (st : SchedState) (e : SchedErr) (tr : List PassId)
    (h : runItemsF env pm fuel items st = .err e tr) :
    runItemsF env pm fuel (items ++ rest) st = .err e tr := by
  induction items generalizing st with
  | nil => simp [runItemsF] at h
  | cons i is ih =>
    rw [List.cons_append]
    rw [show runItemsF env pm fuel (i :: (is ++ rest)) st =
          bindResult (runItemF env pm fuel i st)
            (fun st1 => runItemsF env pm fuel (is ++ rest) st1) from rfl]
    rw [show runItemsF env pm fuel (i :: is) st =
          bindResult (runItemF env pm fuel i st)
            (fun st1 => runItemsF env pm fuel is st1) from rfl] at h
    cases hx : runItemF env pm fuel i st with
    | ok st1 =>
      rw [hx] at h
      simp only [bindResult] at h ⊢
      exact ih st1 h
    | err e' tr' =>
      rw [hx] at h
      simp only [bindResult] at h ⊢
      exact h

theorem loopWhile_limit (f : SchedState → Result) (pred : PropertySet → Bool)
    (hpred : ∀ ps, pred ps = true) :
    ∀ (M : Nat) (st stM : SchedState), iterBody f M st = .ok stM →
      loopWhile f pred M st = .err .iterationLimit stM.trace := by
  intro M
  induction M with
  | zero =>
    intro st stM h
    rw [show iterBody f 0 st = .ok st from rfl] at h
    cases h
    rfl
  | succ n ih =>
    intro st stM h
    rw [show iterBody f (n + 1) st = bindResult (f st) (fun st1 => iterBody f n st1) from rfl] at h
    obtain ⟨st1, hf, hrest⟩ := bindResult_ok h
    rw [show loopWhile f pred (n + 1) st =
          bindResult (f st)
            (fun st1 => if pred st1.property_set = true
              then loopWhile f pred n st1 else .ok st1) from rfl, hf]
    simp only [bindResult]
    rw [if_pos (hpred _)]
    exact ih st1 stM hrest

theorem resolveOpt_pass (g m : Option Bool) (d b : Bool) : resolveOpt (some b) g m d = b := by
  simp [resolveOpt, Option.orElse]

theorem resolveOpt_group (m : Option Bool) (d b : Bool) : resolveOpt none (some b) m d = b := by
  simp [resolveOpt, Option.orElse]

theorem resolveOpt_manager (d b : Bool) : resolveOpt none none (some b) d = b := by
  simp [resolveOpt, Option.orElse]

/-! ### Claim theorems -/

/-- C1: for every scheduled pass whose effective `ignore_requires` is
false, the `requires` are resolved before the pass itself — recursively
and left to right, each through the full algorithm (depth-first) — and
every required identity not in the valid-pass cache at entry is executed,
its trace entry appearing before the dependent pass's own entry; when
`ignore_requires` is true, the requires are not executed at all. -/
theorem claim_requires_resolution (env : Env) (pm : PassOptions) (fuel : Nat)
    (st stR st' : SchedState) (sp : RPass) (q r : PassId) (rs : List PassId) :
    (sp.opts.ignoreRequires = true → do_pass env pm (fuel + 1) st sp = passBody env sp st) ∧
    (sp.opts.ignoreRequires = false →
      do_pass env pm (fuel + 1) st sp =
        bindResult (run_requires env pm fuel (env sp.pid).requires st) (passBody env sp)) ∧
    (run_requires env pm (fuel + 1) (r :: rs) st =
      bindResult (do_pass env pm fuel st (requiredRPass env pm r))
        (fun st1 => run_requires env pm fuel rs st1)) ∧
    (run_requires env pm fuel (env sp.pid).requires st = .ok stR →
      q ∈ (env sp.pid).requires → q ∉ st.valid_passes →
      ∃ Δ, stR.trace = st.trace ++ Δ ∧ q ∈ Δ ∧
        (execRun env stR sp = .ok st' → st'.trace = st.trace ++ Δ ++ [sp.pid])) := by
  refine ⟨?_, ?_, ?_, ?_⟩
  · intro h
    show bindResult (if sp.opts.ignoreRequires = true then .ok st
          else sched env pm fuel (.reqs (env sp.pid).requires) st) (passBody env sp) = _
    rw [if_pos h]
    rfl
  · intro h
    show bindResult (if sp.opts.ignoreRequires = true then .ok st
          else sched env pm fuel (.reqs (env sp.pid).requires) st) (passBody env sp) = _
    rw [if_neg (by simp [h])]
    rfl
  · rfl
  · intro hreq hq hnot
    obtain ⟨Δ, hΔ, _, _, hr⟩ := sched_ok_spec env pm fuel _ st stR hreq
    rcases hr _ q rfl hq with h | h
    · exact absurd h hnot
    · refine ⟨Δ, hΔ, h, ?_⟩
      intro hex
      obtain ⟨htr, _⟩ := execRun_ok_trace hex
      rw [htr, hΔ]

/-- C2: while a pass `B` is in the valid-pass cache, an executing pass
that preserves `B` leaves `B` in the cache, so a later occurrence of `B`
is skipped without a new trace entry; a Transformation pass without
`ignore_preserves` in effect that does not preserve `B` removes `B` from
the cache, so a later occurrence of `B` executes again. -/
theorem claim_preserves_invalidation (env : Env) (st st' st₀ : SchedState)
    (sp spB : RPass) (B : PassId)
    (hB : B ∈ st.valid_passes) (hA : sp.pid ∉ st.valid_passes)
    (hexec : execRun env st sp = .ok st') :
    ((B ∈ (env sp.pid).preserves → B ∈ st'.valid_passes) ∧
     ((env sp.pid).kind = .transformation → sp.opts.ignorePreserves = false →
       B ∉ (env sp.pid).preserves → B ∉ st'.valid_passes)) ∧
    ((spB.pid = B → spB.opts.idempotence = true → spB.opts.ignorePreserves = false →
       B ∈ st₀.valid_passes → passBody env spB st₀ = .ok st₀) ∧
     (spB.pid = B → B ∉ st₀.valid_passes →
       passBody env spB st₀ = execRun env st₀ spB)) := by
  obtain ⟨htr, hval⟩ := execRun_ok_trace hexec
  refine ⟨⟨?_, ?_⟩, ?_, ?_⟩
  · intro hpres
    rw [hval]
    exact update_valid_keep env sp _ B hB hpres
  · intro hk hip hpres
    rw [hval]
    exact update_valid_drop env sp _ B hk hip hpres (fun he => hA (he ▸ hB))
  · intro hpid hidem hip hv
    unfold passBody
    rw [if_pos ⟨hidem, hpid ▸ hv, hip⟩]
  · intro hpid hnv
    unfold passBody
    rw [if_neg (fun hc => hnv (hpid ▸ hc.2.1))]

/-- C3: a successfully processed pass with effective idempotence true and
`ignore_preserves` false ends up in the valid-pass cache; any scheduled
pass with the same identity — identity being class plus constructor
arguments, independent of the particular instance — whose processing
finds the identity still valid is elided with no new execution entry. -/
theorem claim_idempotence_elision (env : Env) (pm : PassOptions) (fuel fuel' : Nat)
    (st st₁ stR : SchedState) (sp sp' : RPass)
    (hpid : sp'.pid = sp.pid)
    (hi : sp.opts.idempotence = true) (hp : sp.opts.ignorePreserves = false)
    (hi' : sp'.opts.idempotence = true) (hp' : sp'.opts.ignorePreserves = false)
    (h1 : do_pass env pm (fuel + 1) st sp = .ok st₁) :
    sp.pid ∈ st₁.valid_passes ∧
    (sp'.opts.ignoreRequires = true → do_pass env pm (fuel' + 1) st₁ sp' = .ok st₁) ∧
    (sp'.opts.ignoreRequires = false →
      run_requires env pm fuel' (env sp'.pid).requires st₁ = .ok stR →
      sp.pid ∈ stR.valid_passes →
      do_pass env pm (fuel' + 1) st₁ sp' = .ok stR) := by
  have hmem : sp.pid ∈ st₁.valid_passes := by
    rw [show do_pass env pm (fuel + 1) st sp =
          bindResult (if sp.opts.ignoreRequires = true then .ok st
            else sched env pm fuel (.reqs (env sp.pid).requires) st)
            (passBody env sp) from rfl] at h1
    obtain ⟨stm, hx, hb⟩ := bindResult_ok h1
    unfold passBody at hb
    split at hb
    · next hcond =>
      cases hb
      exact hcond.2.1
    · obtain ⟨_, hval⟩ := execRun_ok_trace hb
      rw [hval]
      exact update_valid_self env sp _ hi hp
  refine ⟨hmem, ?_, ?_⟩
  · intro hir
    show bindResult (if sp'.opts.ignoreRequires = true then .ok st₁
          else sched env pm fuel' (.reqs (env sp'.pid).requires) st₁) (passBody env sp') = _
    rw [if_pos hir]
    show passBody env sp' st₁ = _
    unfold passBody
    rw [if_pos ⟨hi', hpid ▸ hmem, hp'⟩]
  · intro hir hreq hv
    show bindResult (if sp'.opts.ignoreRequires = true then .ok st₁
          else sched env pm fuel' (.reqs (env sp'.pid).requires) st₁) (passBody env sp') = _
    rw [if_neg (by simp [hir]),
        show sched env pm fuel' (.reqs (env sp'.pid).requires) st₁ = Result.ok stR from hreq]
    show passBody env sp' stR = _
    unfold passBody
    rw [if_pos ⟨hi', hpid ▸ hv, hp'⟩]

/-- C4: a Transformation pass executing with effective `ignore_preserves`
true skips invalidation entirely: the valid-pass cache after its
execution equals the cache before, so every previously valid pass is
still valid and a later occurrence of such a pass is still skipped. -/
theorem claim_ignore_preserves_skips_invalidation (env : Env) (st st' : SchedState)
    (sp spQ : RPass) (q : PassId)
    (hk : (env sp.pid).kind = .transformation)
    (hip : sp.opts.ignorePreserves = true)
    (hexec : execRun env st sp = .ok st') :
    st'.valid_passes = st.valid_passes ∧
    (∀ x, x ∈ st.valid_passes → x ∈ st'.valid_passes) ∧
    (spQ.pid = q → q ∈ st.valid_passes → spQ.opts.idempotence = true →
      spQ.opts.ignorePreserves = false → passBody env spQ st' = .ok st') := by
  obtain ⟨htr, hval⟩ := execRun_ok_trace hexec
  have he : st'.valid_passes = st.valid_passes := by
    rw [hval]
    exact update_valid_ignorePres env sp _ hk hip
  refine ⟨he, fun x hx => he ▸ hx, ?_⟩
  intro hq hv hi hp
  unfold passBody
  rw [if_pos ⟨hi, by rw [hq, he]; exact hv, hp⟩]

/-- C5: an Analysis pass whose body writes the artifact fails with an
access violation naming the artifact, a Transformation pass whose body
writes the property set fails with an access violation naming the
property set (in both cases the offending pass is identified and its
entry is the last of the trace), and an error makes the walk of the
schedule abort: the items after the failing one contribute nothing. -/
theorem claim_fencing_aborts (env : Env) (pm : PassOptions) (fuel : Nat)
    (st stT : SchedState) (spA spT : RPass) (f : Dag → Dag) (k : String) (v : PropValue)
    (items rest : List Item) (e : SchedErr) (tr : List PassId) :
    ((env spA.pid).kind = .analysis → PassOp.writeDag f ∈ (env spA.pid).ops →
      execRun env st spA = .err (.accessViolation .artifact spA.pid) (st.trace ++ [spA.pid])) ∧
    ((env spT.pid).kind = .transformation → PassOp.writeProp k v ∈ (env spT.pid).ops →
      execRun env stT spT = .err (.accessViolation .propertySet spT.pid) (stT.trace ++ [spT.pid])) ∧
    (runItemsF env pm fuel items st = .err e tr →
      runItemsF env pm fuel (items ++ rest) st = .err e tr) := by
  refine ⟨?_, ?_, ?_⟩
  · intro hk hop
    exact execRun_analysis_violation env st spA hk f hop
  · intro hk hop
    exact execRun_transformation_violation env stT spT hk k v hop
  · intro h
    exact runItemsF_err_append env pm fuel items rest st e tr h

/-- C6: a do-while controller always runs its body once before the first
predicate evaluation, and with a predicate that never becomes false and
iteration bound `M` it fails with the iteration-limit error after exactly
`M` repetitions of the body (its final trace is the trace of the `M`-fold
body composition), rather than looping forever. -/
theorem claim_do_while_limit (env : Env) (pm : PassOptions) (fuel : Nat)
    (pred : PropertySet → Bool) (body : Item) (M : Nat) (st stM : SchedState) :
    (runItemF env pm fuel (.doWhile pred (M + 1) body) st =
      bindResult (runItemF env pm fuel body st)
        (fun st1 => if pred st1.property_set = true
          then loopWhile (fun s => runItemF env pm fuel body s) pred M st1 else .ok st1)) ∧
    ((∀ ps, pred ps = true) →
      iterBody (fun s => runItemF env pm fuel body s) M st = .ok stM →
      runItemF env pm fuel (.doWhile pred M body) st = .err .iterationLimit stM.trace) := by
  constructor
  · rfl
  · intro hpred hiter
    exact loopWhile_limit _ pred hpred M st stM hiter

/-- C7: for each of `idempotence`, `ignore_requires` and `ignore_preserves`
the value in effect for a scheduled pass is the pass-level setting when
present, else the `add_pass` group-level setting, else the manager-level
default; in particular a pass-level setting always wins. -/
theorem claim_option_precedence (pid : PassId) (p g m : PassOptions) (b : Bool) :
    ((p.idempotence = some b → (mkScheduled pid p g m).opts.idempotence = b) ∧
     (p.idempotence = none → g.idempotence = some b →
       (mkScheduled pid p g m).opts.idempotence = b) ∧
     (p.idempotence = none → g.idempotence = none → m.idempotence = some b →
       (mkScheduled pid p g m).opts.idempotence = b)) ∧
    ((p.ignoreRequires = some b → (mkScheduled pid p g m).opts.ignoreRequires = b) ∧
     (p.ignoreRequires = none → g.ignoreRequires = some b →
       (mkScheduled pid p g m).opts.ignoreRequires = b) ∧
     (p.ignoreRequires = none → g.ignoreRequires = none → m.ignoreRequires = some b →
       (mkScheduled pid p g m).opts.ignoreRequires = b)) ∧
    ((p.ignorePreserves = some b → (mkScheduled pid p g m).opts.ignorePreserves = b) ∧
     (p.ignorePreserves = none → g.ignorePreserves = some b →
       (mkScheduled pid p g m).opts.ignorePreserves = b) ∧
     (p.ignorePreserves = none → g.ignorePreserves = none → m.ignorePreserves = some b →
       (mkScheduled pid p g m).opts.ignorePreserves = b)) := by
  refine ⟨⟨?_, ?_, ?_⟩, ⟨?_, ?_, ?_⟩, ⟨?_, ?_, ?_⟩⟩
  · intro h1
    show resolveOpt p.idempotence g.idempotence m.idempotence true = b
    rw [h1, resolveOpt_pass]
  · intro h1 h2
    show resolveOpt p.idempotence g.idempotence m.idempotence true = b
    rw [h1, h2, resolveOpt_group]
  · intro h1 h2 h3
    show resolveOpt p.idempotence g.idempotence m.idempotence true = b
    rw [h1, h2, h3, resolveOpt_manager]
  · intro h1
    show resolveOpt p.ignoreRequires g.ignoreRequires m.ignoreRequires false = b
    rw [h1, resolveOpt_pass]
  · intro h1 h2
    show resolveOpt p.ignoreRequires g.ignoreRequires m.ignoreRequires false = b
    rw [h1, h2, resolveOpt_group]
  · intro h1 h2 h3
    show resolveOpt p.ignoreRequires g.ignoreRequires m.ignoreRequires false = b
    rw [h1, h2, h3, resolveOpt_manager]
  · intro h1
    show resolveOpt p.ignorePreserves g.ignorePreserves m.ignorePreserves false = b
    rw [h1, resolveOpt_pass]
  · intro h1 h2
    show resolveOpt p.ignorePreserves g.ignorePreserves m.ignorePreserves false = b
    rw [h1, h2, resolveOpt_group]
  · intro h1 h2 h3
    show resolveOpt p.ignorePreserves g.ignorePreserves m.ignorePreserves false = b
    rw [h1, h2, h3, resolveOpt_manager]

/-- C8: a conditional controller evaluates its predicate over the Property
Set of the state at which the controller is reached; when the predicate is
true the controller behaves exactly as its body (children once, in order),
and when it is false it produces nothing and leaves the state unchanged. -/
theorem claim_conditional_controller (env : Env) (pm : PassOptions) (fuel : Nat)
    (pred : PropertySet → Bool) (body : Item) (st : SchedState) :
    (pred st.property_set = true →
      runItemF env pm fuel (.conditional pred body) st = runItemF env pm fuel body st) ∧
    (pred st.property_set = false →
      runItemF env pm fuel (.conditional pred body) st = .ok st) := by
  constructor
  · intro h
    show (if pred st.property_set = true then runItemF env pm fuel body st else .ok st) = _
    rw [if_pos h]
  · intro h
    show (if pred st.property_set = true then runItemF env pm fuel body st else .ok st) = _
    rw [if_neg (by simp [h])]

/-- C9: removing a control-flow plugin under a name that is not registered
fails with the lookup error `unknownPlugin`, at the removal call itself. -/
theorem claim_remove_unknown_plugin (pm : PassManager) (name : String)
    (h : name ∉ pm.plugins.map Prod.fst) :
    remove_control_flow_plugin pm name = .error .unknownPlugin := by
  unfold remove_control_flow_plugin
  rw [if_neg h]

/-- C10: a pass with effective idempotence false is never skipped by
de-duplication and its execution adds nothing to the valid-pass cache;
and a required identity absent from the cache is executed (again) before
each occurrence of its dependent pass. -/
theorem claim_non_idempotent_reexecution (env : Env) (pm : PassOptions) (fuel : Nat)
    (st st' st₂ stR : SchedState) (sp : RPass) (q : PassId) (rs : List PassId) :
    (sp.opts.idempotence = false → passBody env sp st = execRun env st sp) ∧
    (sp.opts.idempotence = false → execRun env st sp = .ok st' →
      st'.trace = st.trace ++ [sp.pid] ∧
      ∀ x, x ∈ st'.valid_passes → x ∈ st.valid_passes) ∧
    (run_requires env pm fuel rs st₂ = .ok stR → q ∈ rs → q ∉ st₂.valid_passes →
      ∃ Δ, stR.trace = st₂.trace ++ Δ ∧ q ∈ Δ) := by
  refine ⟨?_, ?_, ?_⟩
  · intro hi
    unfold passBody
    rw [if_neg (fun hc => by rw [hi] at hc; exact absurd hc.1 (by simp))]
  · intro hi hexec
    obtain ⟨htr, hval⟩ := execRun_ok_trace hexec
    exact ⟨htr, fun x hx => update_valid_no_add env sp _ hi x (hval ▸ hx)⟩
  · intro hreq hq hnot
    obtain ⟨Δ, hΔ, _, _, hr⟩ := sched_ok_spec env pm fuel _ st₂ stR hreq
    rcases hr _ q rfl hq with h | h
    · exact absurd h hnot
    · exact ⟨Δ, hΔ, h⟩

/-! ### Witnesses for the claim theorems -/

/-- Witness for C1: in the chain scenario PassB requires PassA; from the
empty cache PassA is executed during requires resolution and its trace
entry precedes PassB's own entry. -/
theorem claim_requires_resolution_witness :
    ∃ Δ, (⟨⟨8⟩, [], [pidA], [pidA]⟩ : SchedState).trace = (initState ⟨8⟩).trace ++ Δ ∧
      pidA ∈ Δ ∧
      (execRun testEnv ⟨⟨8⟩, [], [pidA], [pidA]⟩ (dflt pidB) =
          .ok ⟨⟨8⟩, [], [pidB, pidA], [pidA, pidB]⟩ →
        (⟨⟨8⟩, [], [pidB, pidA], [pidA, pidB]⟩ : SchedState).trace =
          (initState ⟨8⟩).trace ++ Δ ++ [pidB]) := by
  have h := claim_requires_resolution testEnv noOptions 10 (initState ⟨8⟩)
    ⟨⟨8⟩, [], [pidA], [pidA]⟩ ⟨⟨8⟩, [], [pidB, pidA], [pidA, pidB]⟩ (dflt pidB) pidA pidA []
  exact h.2.2.2 (by decide) (by decide) (by decide)

/-- Witness for C2: PassD (preserves nothing) executed while PassA is
valid removes PassA from the cache, and re-adding PassA then executes. -/
theorem claim_preserves_invalidation_witness :
    pidA ∉ (⟨⟨8⟩, [], [pidD], [pidA, pidD]⟩ : SchedState).valid_passes ∧
    passBody testEnv (dflt pidA) ⟨⟨8⟩, [], [pidD], [pidA, pidD]⟩ =
      execRun testEnv ⟨⟨8⟩, [], [pidD], [pidA, pidD]⟩ (dflt pidA) := by
  have h := claim_preserves_invalidation testEnv ⟨⟨8⟩, [], [pidA], [pidA]⟩
    ⟨⟨8⟩, [], [pidD], [pidA, pidD]⟩ ⟨⟨8⟩, [], [pidD], [pidA, pidD]⟩
    (dflt pidD) (dflt pidA) pidA (by decide) (by decide) (by decide)
  exact ⟨h.1.2 (by decide) (by decide) (by decide), h.2.2 rfl (by decide)⟩

/-- Witness for C3: running default PassA once records it valid, and a
second occurrence of the same identity is elided with no state change. -/
theorem claim_idempotence_elision_witness :
    pidA ∈ (⟨⟨8⟩, [], [pidA], [pidA]⟩ : SchedState).valid_passes ∧
    do_pass testEnv noOptions 11 ⟨⟨8⟩, [], [pidA], [pidA]⟩ (dflt pidA) =
      .ok ⟨⟨8⟩, [], [pidA], [pidA]⟩ := by
  have h := claim_idempotence_elision testEnv noOptions 10 10 (initState ⟨8⟩)
    ⟨⟨8⟩, [], [pidA], [pidA]⟩ ⟨⟨8⟩, [], [pidA], [pidA]⟩ (dflt pidA) (dflt pidA)
    rfl (by decide) (by decide) (by decide) (by decide) (by decide)
  exact ⟨h.1, h.2.2 (by decide) (by decide) h.1⟩

/-- Witness for C4: PassD run with `ignore_preserves` in effect leaves
the cache exactly as before, so the previously valid PassA stays skipped. -/
theorem claim_ignore_preserves_witness :
    (⟨⟨8⟩, [], [pidA], [pidA, pidD]⟩ : SchedState).valid_passes =
      (⟨⟨8⟩, [], [pidA], [pidA]⟩ : SchedState).valid_passes ∧
    passBody testEnv (dflt pidA) ⟨⟨8⟩, [], [pidA], [pidA, pidD]⟩ =
      .ok ⟨⟨8⟩, [], [pidA], [pidA, pidD]⟩ := by
  have h := claim_ignore_preserves_skips_invalidation testEnv ⟨⟨8⟩, [], [pidA], [pidA]⟩
    ⟨⟨8⟩, [], [pidA], [pidA, pidD]⟩
    (mkScheduled pidD noOptions noOptions ⟨none, none, some true⟩) (dflt pidA) pidA
    (by decide) (by decide) (by decide)
  exact ⟨h.1, h.2.2 rfl (by decide) (by decide) (by decide)⟩

/-- Witness for C5: the bad analysis pass trips the artifact fence, the
bad transformation pass trips the property-set fence, and the schedule
items after the failing pass contribute nothing. -/
theorem claim_fencing_aborts_witness :
    execRun testEnv (initState ⟨8⟩) (dflt pidI) =
      .err (.accessViolation .artifact pidI) [pidI] ∧
    execRun testEnv (initState ⟨8⟩) (dflt pidH) =
      .err (.accessViolation .propertySet pidH) [pidH] ∧
    runItemsF testEnv noOptions 10
        ([.single (dflt pidH)] ++ [.single (dflt pidA)]) (initState ⟨8⟩) =
      .err (.accessViolation .propertySet pidH) [pidH] := by
  have h := claim_fencing_aborts testEnv noOptions 10 (initState ⟨8⟩) (initState ⟨8⟩)
    (dflt pidI) (dflt pidH) (fun d => ⟨d.property + 1⟩) "property" (.b true)
    [.single (dflt pidH)] [.single (dflt pidA)]
    (.accessViolation .propertySet pidH) [pidH]
  exact ⟨h.1 (by decide) (List.mem_cons_self _ _),
         h.2.1 (by decide) (List.mem_cons_self _ _),
         h.2.2 (by decide)⟩

/-- Witness for C6: a do-while over a non-idempotent PassA whose predicate
is constantly true and whose bound is 2 fails with the iteration-limit
error after exactly two executions of the body. -/
theorem claim_do_while_limit_witness :
    runItemF testEnv noOptions 10
        (.doWhile (fun _ => true) 2
          (.single (mkScheduled pidA ⟨some false, none, none⟩ noOptions noOptions)))
        (initState ⟨8⟩) =
      .err .iterationLimit [pidA, pidA] := by
  have h := claim_do_while_limit testEnv noOptions 10 (fun _ => true)
    (.single (mkScheduled pidA ⟨some false, none, none⟩ noOptions noOptions)) 2
    (initState ⟨8⟩) ⟨⟨8⟩, [], [], [pidA, pidA]⟩
  exact h.2 (fun ps => rfl) (by decide)

/-- Witness for C7: with the settings of the precedence test (manager
`idempotence = true`, `ignore_requires = true`, `ignore_preserves = false`;
group `idempotence = true`, `ignore_preserves = true`; pass-level
`idempotence = false`) the scheduled pass gets `idempotence = false`,
`ignore_requires = true`, `ignore_preserves = true`. -/
theorem claim_option_precedence_witness :
    (mkScheduled pidA ⟨some false, none, none⟩ ⟨some true, none, some true⟩
      ⟨some true, some true, some false⟩).opts.idempotence = false ∧
    (mkScheduled pidA ⟨some false, none, none⟩ ⟨some true, none, some true⟩
      ⟨some true, some true, some false⟩).opts.ignoreRequires = true ∧
    (mkScheduled pidA ⟨some false, none, none⟩ ⟨some true, none, some true⟩
      ⟨some true, some true, some false⟩).opts.ignorePreserves = true := by
  refine ⟨(claim_option_precedence pidA _ _ _ false).1.1 rfl,
          (claim_option_precedence pidA _ _ _ true).2.1.2.2 rfl rfl rfl,
          (claim_option_precedence pidA _ _ _ true).2.2.2.1 rfl rfl⟩

/-- Witness for C8: the conditional of the test suite runs its body when
the property written by PassE is true and produces nothing when false. -/
theorem claim_conditional_controller_witness :
    runItemF testEnv noOptions 10
        (.conditional (fun ps => getProp ps "property" == some (.b true))
          (.single (dflt pidA)))
        ⟨⟨8⟩, [("property", .b true)], [pidE true], [pidE true]⟩ =
      runItemF testEnv noOptions 10 (.single (dflt pidA))
        ⟨⟨8⟩, [("property", .b true)], [pidE true], [pidE true]⟩ ∧
    runItemF testEnv noOptions 10
        (.conditional (fun ps => getProp ps "property" == some (.b true))
          (.single (dflt pidA)))
        ⟨⟨8⟩, [("property", .b false)], [pidE false], [pidE false]⟩ =
      .ok ⟨⟨8⟩, [("property", .b false)], [pidE false], [pidE false]⟩ := by
  exact ⟨(claim_conditional_controller testEnv noOptions 10 _ _ _).1 (by decide),
         (claim_conditional_controller testEnv noOptions 10 _ _ _).2 (by decide)⟩

/-- Witness for C9: removing the unregistered plugin name "foo" from a
fresh pass manager fails with the lookup error. -/
theorem claim_remove_unknown_plugin_witness :
    remove_control_flow_plugin (newPassManager noOptions) "foo" = .error .unknownPlugin :=
  claim_remove_unknown_plugin (newPassManager noOptions) "foo" (by decide)

/-- Witness for C10: a non-idempotent PassA executes despite any cache
state, its execution records nothing valid, and PassA is re-executed as a
requirement immediately after having just run. -/
theorem claim_non_idempotent_reexecution_witness :
    passBody testEnv (mkScheduled pidA ⟨some false, none, none⟩ noOptions noOptions)
        (initState ⟨8⟩) =
      execRun testEnv (initState ⟨8⟩)
        (mkScheduled pidA ⟨some false, none, none⟩ noOptions noOptions) ∧
    ((⟨⟨8⟩, [], [], [pidA]⟩ : SchedState).trace = (initState ⟨8⟩).trace ++ [pidA] ∧
      ∀ x, x ∈ (⟨⟨8⟩, [], [], [pidA]⟩ : SchedState).valid_passes →
        x ∈ (initState ⟨8⟩).valid_passes) ∧
    (∃ Δ, (⟨⟨8⟩, [], [pidA], [pidA, pidA]⟩ : SchedState).trace =
        (⟨⟨8⟩, [], [], [pidA]⟩ : SchedState).trace ++ Δ ∧ pidA ∈ Δ) := by
  have h := claim_non_idempotent_reexecution testEnv noOptions 10 (initState ⟨8⟩)
    ⟨⟨8⟩, [], [], [pidA]⟩ ⟨⟨8⟩, [], [], [pidA]⟩ ⟨⟨8⟩, [], [pidA], [pidA, pidA]⟩
    (mkScheduled pidA ⟨some false, none, none⟩ noOptions noOptions) pidA [pidA]
  exact ⟨h.1 (by decide), h.2.1 (by decide) (by decide),
         h.2.2 (by decide) (by decide) (by decide)⟩

/-! ### Sanity checks: the model reproduces the traces of the test suite -/

/-- Sanity: `test_chain` — C, B, D, B with requires/preserves yields the
trace A, C, B, D, A, B. -/
theorem sanity_test_chain :
    run_passes testEnv
      { pmOpts := noOptions
        working_list := [.single (dflt pidC), .single (dflt pidB), .single (dflt pidD),
                         .single (dflt pidB)]
        plugins := defaultPlugins } 40 ⟨8⟩ =
      .ok ⟨⟨8⟩, [], [pidB, pidA], [pidA, pidC, pidB, pidD, pidA, pidB]⟩ := by
  decide

/-- Sanity: `test_ignore_request_pm` — with manager-level
`ignore_requires = true` no required pass is ever executed. -/
theorem sanity_test_ignore_requires :
    run_passes testEnv
      { pmOpts := ⟨none, some true, none⟩
        working_list := [pidC, pidB, pidD, pidB].map
          (fun p => .single (mkScheduled p noOptions noOptions ⟨none, some true, none⟩))
        plugins := defaultPlugins } 40 ⟨8⟩ =
      .ok ⟨⟨8⟩, [], [pidB], [pidC, pidB, pidD, pidB]⟩ := by
  decide

/-- Sanity: `test_ignore_preserves_pm` — with manager-level
`ignore_preserves = true` no pass is recorded valid, so PassA re-runs
before every occurrence of PassB. -/
theorem sanity_test_ignore_preserves :
    run_passes testEnv
      { pmOpts := ⟨none, none, some true⟩
        working_list := [pidC, pidB, pidD, pidB].map
          (fun p => .single (mkScheduled p noOptions noOptions ⟨none, none, some true⟩))
        plugins := defaultPlugins } 40 ⟨8⟩ =
      .ok ⟨⟨8⟩, [], [], [pidA, pidC, pidA, pidB, pidD, pidA, pidB]⟩ := by
  decide

/-- Sanity: `test_do_not_repeat_based_on_idempotence` — adding default
PassA four times yields a single execution entry. -/
theorem sanity_test_idempotence :
    run_passes testEnv
      { pmOpts := noOptions
        working_list := [.single (dflt pidA),
                         seqOf [.single (dflt pidA), .single (dflt pidA)],
                         .single (dflt pidA)]
        plugins := defaultPlugins } 40 ⟨8⟩ =
      .ok ⟨⟨8⟩, [], [pidA], [pidA]⟩ := by
  decide

/-- Sanity: `test_do_while_until_max_iterationt` — a do-while over B, C
with an always-true predicate and bound 2 runs A (as B's requirement),
B, C, B, C and then fails with the iteration-limit error. -/
theorem sanity_test_do_while_max_iteration :
    run_passes testEnv
      { pmOpts := noOptions
        working_list := [.doWhile (fun _ => true) 2
          (seqOf [.single (dflt pidB), .single (dflt pidC)])]
        plugins := defaultPlugins } 40 ⟨8⟩ =
      .err .iterationLimit [pidA, pidB, pidC, pidB, pidC] := by
  decide

/-- Sanity: `test_conditional_passes_true` and `..._false` — the
conditional controller keyed on the property written by PassE runs PassA
exactly when the property is true. -/
theorem sanity_test_conditional :
    (run_passes testEnv
      { pmOpts := noOptions
        working_list := [.single (dflt (pidE true)),
          .conditional (fun ps => getProp ps "property" == some (.b true))
            (.single (dflt pidA))]
        plugins := defaultPlugins } 40 ⟨8⟩ =
      .ok ⟨⟨8⟩, [("property", .b true)], [pidA], [pidE true, pidA]⟩) ∧
    (run_passes testEnv
      { pmOpts := noOptions
        working_list := [.single (dflt (pidE false)),
          .conditional (fun ps => getProp ps "property" == some (.b true))
            (.single (dflt pidA))]
        plugins := defaultPlugins } 40 ⟨8⟩ =
      .ok ⟨⟨8⟩, [("property", .b false)], [pidE false], [pidE false]⟩) := by
  constructor <;> decide

end Transpiler
